import Mathlib

/-!
Shallow embedding of the RL-temperature-controller repository
(heonyheonss/RL-temperature-controller).

Numeric values are modelled over `ℚ` (the Python code computes with IEEE
floats, but every claim under scrutiny concerns the exact algebraic form of
the updates, so exact rationals are the appropriate semantics).  Fallible
device I/O is modelled with `Option`/`Except`, and register traffic as an
explicit event trace.
-/

namespace RLTemp

/-! ### FOPDT constants

`heater_gym_env.py` and `train_rl_heater.py` both define the identical
identified parameters `KP = 19.999`, `TAU = 122.544`, `THETA = 15.735`,
`DT = 1.0`; we define them once. -/

def KP : ℚ := 19.999
def TAU : ℚ := 122.544
def THETA : ℚ := 15.735
def DT : ℚ := 1.0

/-- `np.clip(x, lo, hi)`. -/
def np_clip (x lo hi : ℚ) : ℚ := min (max x lo) hi

/-- `buffer_size = int(max(1, THETA / DT))` (both environment files).
Python `max(1, q)` followed by `int(...)` truncates toward zero; the value
is ≥ 1, so truncation coincides with the floor. -/
def bufferSize : ℕ := Int.toNat ⌊max 1 (THETA / DT)⌋

namespace HeaterGym

/-- Mutable state of `HeaterEnv` in `environment_src/heater_gym_env.py`. -/
structure EnvState where
  target_temp : ℚ
  current_temp : ℚ
  prev_temp : ℚ
  current_step : ℕ
  max_steps : ℕ
  u_buffer : List ℚ
  prev_output : ℚ
deriving DecidableEq

/-- `HeaterEnv.reset` of `heater_gym_env.py` (the seed only feeds the RNG of
the gym superclass and touches no field used here). -/
def reset (target_temp : ℚ) : EnvState :=
  { target_temp := target_temp
    current_temp := 25.0
    prev_temp := 25.0
    current_step := 0
    max_steps := 600
    u_buffer := List.replicate bufferSize 0.0
    prev_output := 0.0 }

/-- The 5-tuple returned by `HeaterEnv.step` (info dict omitted: always empty). -/
structure StepOut where
  state : EnvState
  obs : List ℚ
  reward : ℚ
  terminated : Bool
  truncated : Bool
deriving DecidableEq

/-- `HeaterEnv.step` of `heater_gym_env.py`.  The deque has
`maxlen = bufferSize`; `u_delayed = u_buffer[0]` is read before the append,
and appending to a full deque drops the oldest (leftmost) entry. -/
def step (s : EnvState) (action : ℚ) : StepOut :=
  let heater_output := np_clip ((action + 1.0) / 2.0 * 100.0) 0.0 100.0
  let u_delayed := s.u_buffer.headI
  let u_buffer' :=
    if s.u_buffer.length < bufferSize then s.u_buffer ++ [heater_output]
    else s.u_buffer.tail ++ [heater_output]
  let dy := (KP * u_delayed - (s.current_temp - 24.0)) / TAU * DT
  let current_temp' := s.current_temp + dy
  let current_step' := s.current_step + 1
  let error := s.target_temp - current_temp'
  let reward0 := -(error ^ 2)
  let reward1 := if current_temp' > s.target_temp + 0.5 then -1 * |reward0| else reward0
  let delta_output := |heater_output - s.prev_output|
  let reward2 := reward1 - 0.1 * delta_output
  let reward3 := if |error| < 0.5 then reward2 + 10.0 else reward2
  let s' : EnvState :=
    { target_temp := s.target_temp
      current_temp := current_temp'
      prev_temp := s.current_temp
      current_step := current_step'
      max_steps := s.max_steps
      u_buffer := u_buffer'
      prev_output := heater_output }
  { state := s'
    obs := [s'.target_temp - s'.current_temp, s'.current_temp, s'.prev_output]
    reward := reward3
    terminated := false
    truncated := decide (s.max_steps ≤ current_step') }

/-- Fold `step` over a list of actions, keeping only the state. -/
def simulate (s : EnvState) (actions : List ℚ) : EnvState :=
  actions.foldl (fun st a => (step st a).state) s

end HeaterGym

namespace TrainRL

/-- Mutable state of `HeaterEnv` in `environment_src/train_rl_heater.py`
(this copy keeps no `prev_temp`). -/
structure EnvState where
  target_temp : ℚ
  current_temp : ℚ
  current_step : ℕ
  max_steps : ℕ
  u_buffer : List ℚ
  prev_output : ℚ
deriving DecidableEq

/-- `HeaterEnv.reset` of `train_rl_heater.py`; `target_temp` is set by
`__init__` (to 50.0) and left untouched by `reset`, so it is a parameter. -/
def reset (target_temp : ℚ) : EnvState :=
  { target_temp := target_temp
    current_temp := 24.0
    current_step := 0
    max_steps := 600
    u_buffer := List.replicate bufferSize 0.0
    prev_output := 0.0 }

/-- The 5-tuple returned by `HeaterEnv.step` of `train_rl_heater.py`. -/
structure StepOut where
  state : EnvState
  obs : List ℚ
  reward : ℚ
  terminated : Bool
  truncated : Bool
deriving DecidableEq

/-- `HeaterEnv.step` of `train_rl_heater.py`.  The source assigns `dy`
twice with the algebraically identical expression; only the second
assignment survives.  `prev_output` is updated before the reward is
computed, but the reward of this copy never reads it. -/
def step (s : EnvState) (action : ℚ) : StepOut :=
  let heater_output := np_clip ((action + 1.0) / 2.0 * 100.0) 0.0 100.0
  let u_delayed := s.u_buffer.headI
  let u_buffer' :=
    if s.u_buffer.length < bufferSize then s.u_buffer ++ [heater_output]
    else s.u_buffer.tail ++ [heater_output]
  let dy := (KP * u_delayed - (s.current_temp - 24.0)) / TAU * DT
  let current_temp' := s.current_temp + dy
  let current_step' := s.current_step + 1
  let error := s.target_temp - current_temp'
  let reward0 := -(error ^ 2)
  let reward1 := if |error| < 0.5 then reward0 + 10.0 else reward0
  let s' : EnvState :=
    { target_temp := s.target_temp
      current_temp := current_temp'
      current_step := current_step'
      max_steps := s.max_steps
      u_buffer := u_buffer'
      prev_output := heater_output }
  { state := s'
    obs := [s'.target_temp - s'.current_temp, s'.current_temp, s'.prev_output]
    reward := reward1
    terminated := false
    truncated := decide (s.max_steps ≤ current_step') }

/-- Fold `step` over a list of actions, keeping only the state. -/
def simulate (s : EnvState) (actions : List ℚ) : EnvState :=
  actions.foldl (fun st a => (step st a).state) s

end TrainRL

/-! ### Modbus register traffic

`control/reset_vx_to_safe_state.py` and `collect_digital_twin_data.py` talk
to the controller through `minimalmodbus`.  We model observable register
traffic as an event trace; a raw `write_register` call either transmits one
write event or raises (modelled with `Except`, driven by a failure oracle
argument).  Every `set_*` helper in the sources wraps its write in
`try/except`, so a helper never propagates an exception: it contributes its
write event on success and nothing on failure. -/

inductive Ev where
  | write (addr : ℕ) (val : ℚ)
  | sleep (seconds : ℚ)
  | close
deriving DecidableEq

def A_M_ADDR : ℕ := 31
def MV_IN_ADDR : ℕ := 32
def R_S_ADDR : ℕ := 33
def SV1_ADDR : ℕ := 103
def SAFE_TEMP : ℚ := 25.0

/-- `instrument.write_register(addr, value, decimals, 16)`: one transmitted
write on success, an exception on transport failure. -/
def write_register (fail : Bool) (addr : ℕ) (value : ℚ) : Except String (List Ev) :=
  if fail then Except.error "communication error" else Except.ok [Ev.write addr value]

/-- Run a fallible write under the `try/except` wrapper every `set_*` helper
uses: failures are logged and swallowed. -/
def try_write (w : Except String (List Ev)) : List Ev :=
  match w with
  | Except.ok evs => evs
  | Except.error _ => []

namespace SafeReset

/-- `set_run_stop` of `control/reset_vx_to_safe_state.py`. -/
def set_run_stop (fail : Bool) (is_run : Bool) : List Ev :=
  try_write (write_register fail R_S_ADDR (if is_run then 1 else 0))

/-- `set_auto_manual` of `control/reset_vx_to_safe_state.py`. -/
def set_auto_manual (fail : Bool) (is_manual : Bool) : List Ev :=
  try_write (write_register fail A_M_ADDR (if is_manual then 1 else 0))

/-- `set_vx_manual_output` of `control/reset_vx_to_safe_state.py`:
`safe_output = max(0.0, min(100.0, output_percent))`. -/
def set_vx_manual_output (fail : Bool) (output_percent : ℚ) : List Ev :=
  try_write (write_register fail MV_IN_ADDR (max 0.0 (min 100.0 output_percent)))

/-- `set_vx_sv1` of `control/reset_vx_to_safe_state.py` (no clamping). -/
def set_vx_sv1 (fail : Bool) (target_temp : ℚ) : List Ev :=
  try_write (write_register fail SV1_ADDR target_temp)

/-- `run_safe_state_reset` of `control/reset_vx_to_safe_state.py`, as the
register-event trace it produces.  `connOk` is the outcome of `connect_vx`
(which catches its own exceptions and returns `None` on failure);
`f i` tells whether the `i`-th register write raises inside its helper.
Control flow of the source: if `connect_vx` returns `None`, a
`ConnectionError` is raised, caught by the `except` block (log only), and
the `finally` block skips `serial.close()` because `vx_controller` is
`None` — no event at all.  If the connection succeeds, the four helpers run
in sequence (each swallowing its own write failure, separated by
`time.sleep(0.5)` settling delays), and the `finally` block always closes
the session. -/
def run_safe_state_reset (connOk : Bool) (f : Fin 4 → Bool) : List Ev :=
  if connOk then
    set_vx_manual_output (f 0) 0.0 ++ [Ev.sleep 0.5] ++
    set_vx_sv1 (f 1) SAFE_TEMP ++ [Ev.sleep 0.5] ++
    set_auto_manual (f 2) false ++ [Ev.sleep 0.5] ++
    set_run_stop (f 3) false ++ [Ev.sleep 0.5] ++
    [Ev.close]
  else []

end SafeReset

namespace Collect

/-- `set_vx_manual_output` of `collect_digital_twin_data.py`:
`safe_output = max(0.0, min(40.0, output_percent))`. -/
def set_vx_manual_output (fail : Bool) (output_percent : ℚ) : List Ev :=
  try_write (write_register fail MV_IN_ADDR (max 0.0 (min 40.0 output_percent)))

/-- One CSV row of the step-response log (`collect_digital_twin_data.py`);
the Timestamp and Elapsed-Time columns are wall-clock data irrelevant to the
claims and are omitted.  `actual_output` is `Option` because the heating
loop logs the raw result of `read_output_percent`, which may be absent. -/
structure TickRecord where
  target_output : ℚ
  actual_output : Option ℚ
  actual_temp : ℚ
deriving DecidableEq

/-- One iteration of the heating-phase loop of `collect_digital_twin_data.py`
(`__main__`, Phase 1): read temperature and measured output; if the
temperature read failed (`current_temp is None`) the iteration `continue`s
without logging; otherwise exactly one record is appended, carrying whatever
the output read returned (possibly absent). -/
def heating_tick (step_output : ℚ) (current_temp : Option ℚ) (actual_output : Option ℚ) :
    Option TickRecord :=
  match current_temp with
  | none => none
  | some t => some { target_output := step_output, actual_output := actual_output,
                     actual_temp := t }

/-- One iteration of the cooling-phase loop of `collect_digital_twin_data.py`
(`__main__`, Phase 2): the iteration `continue`s without logging if either
the temperature or the measured-output read failed; the record logs target
output 0.0 and the measured output. -/
def cooling_tick (current_temp : Option ℚ) (current_output : Option ℚ) :
    Option TickRecord :=
  match current_temp, current_output with
  | some t, some o => some { target_output := 0.0, actual_output := some o,
                             actual_temp := t }
  | _, _ => none

/-- The heating-phase loop over the per-tick readings
`(read_temperature, read_output_percent)`: each tick appends at most one
record and the loop always advances to the next tick. -/
def heating_loop (step_output : ℚ) (readings : List (Option ℚ × Option ℚ)) :
    List TickRecord :=
  readings.filterMap (fun r => heating_tick step_output r.1 r.2)

/-- The cooling-phase loop over the per-tick readings. -/
def cooling_loop (readings : List (Option ℚ × Option ℚ)) : List TickRecord :=
  readings.filterMap (fun r => cooling_tick r.1 r.2)

end Collect

namespace SysId

/-- The FOPDT parameters fitted for one file
(`example/system_identification.py`; the dict also carries `delta_u`,
irrelevant to the aggregation). -/
structure FitParams where
  Kp : ℚ
  tau : ℚ
  theta : ℚ
deriving DecidableEq

/-- `analyze_step_response` around its `curve_fit` call: the fit either
produces parameters or raises; the `try/except` turns a raise into a logged
`None` (the missing-file and empty-heat-phase early exits also return
`None`, subsumed by the same `Except.error` outcome). -/
def analyze_step_response (fit : Except String FitParams) : Option FitParams :=
  match fit with
  | Except.ok p => some p
  | Except.error _ => none

/-- `np.mean` of a list of values. -/
def np_mean (l : List ℚ) : ℚ := l.sum / l.length

/-- The `__main__` aggregation block of `example/system_identification.py`:
collect the successful per-file results in order, and if at least one file
succeeded write a summary holding the arithmetic means of `Kp`, `tau`,
`theta`; otherwise write nothing (`none`). -/
def batch_aggregate (fits : List (Except String FitParams)) : Option FitParams :=
  let results := fits.filterMap analyze_step_response
  if results.isEmpty then none
  else some { Kp := np_mean (results.map FitParams.Kp)
              tau := np_mean (results.map FitParams.tau)
              theta := np_mean (results.map FitParams.theta) }

end SysId

namespace Animation

/-- One recorded training snapshot (`environment_src/animation.py`), a dict
`{step, times, temps, outputs}`. -/
structure Snapshot where
  step : ℤ
  times : List ℚ
  temps : List ℚ
  outputs : List ℚ
deriving DecidableEq, Inhabited

/-- Python `int(q)`: truncation toward zero. -/
def py_int (q : ℚ) : ℤ := if 0 ≤ q then ⌊q⌋ else ⌈q⌉

/-- Element-wise `(1 - alpha) * start + alpha * end` on numpy arrays. -/
def lerp_list (alpha : ℚ) (xs ys : List ℚ) : List ℚ :=
  List.zipWith (fun x y => (1 - alpha) * x + alpha * y) xs ys

/-- The inner loop of `TrainingAnimator._interpolate_data` for one pair of
consecutive snapshots: frames `f = 0, …, frames_per_log - 1` with
`alpha = f / frames_per_log`, temps and outputs linearly interpolated,
`step` the Python-`int` (truncated) interpolation, `times` taken unchanged
from the start snapshot. -/
def interp_pair (frames_per_log : ℕ) (start_data end_data : Snapshot) : List Snapshot :=
  (List.range frames_per_log).map fun (f : ℕ) =>
    let alpha : ℚ := (f : ℚ) / (frames_per_log : ℚ)
    { step := py_int ((1 - alpha) * (start_data.step : ℚ) + alpha * (end_data.step : ℚ))
      times := start_data.times
      temps := lerp_list alpha start_data.temps end_data.temps
      outputs := lerp_list alpha start_data.outputs end_data.outputs }

/-- `TrainingAnimator._interpolate_data`: the loop
`for i in range(n_logs - 1)` over consecutive snapshot pairs (expressed as
`data.zip data.tail`), followed by appending the final snapshot unmodified
(`self.data[-1]`; the source raises on an empty list, which the claims
exclude — a default is returned in that vacuous case). -/
def interpolate_data (data : List Snapshot) (frames_per_log : ℕ) : List Snapshot :=
  ((data.zip data.tail).flatMap fun p => interp_pair frames_per_log p.1 p.2) ++
    [data.getLastD default]

end Animation

/-! ## Theorems -/

/-- `buffer_size` with the default constants: `int(max(1, 15.735)) = 15`. -/
theorem bufferSize_eq : bufferSize = 15 := by
  have h1 : max (1:ℚ) (THETA / DT) = 15735 / 1000 := by
    rw [max_eq_right] <;> norm_num [THETA, DT]
  rw [bufferSize, h1]
  norm_num
  rfl

namespace HeaterGym

theorem step_current_temp (s : EnvState) (a : ℚ) :
    (step s a).state.current_temp =
      s.current_temp + (KP * s.u_buffer.headI - (s.current_temp - 24.0)) / TAU * DT := rfl

theorem step_u_buffer (s : EnvState) (a : ℚ) :
    (step s a).state.u_buffer =
      if s.u_buffer.length < bufferSize
      then s.u_buffer ++ [np_clip ((a + 1.0) / 2.0 * 100.0) 0.0 100.0]
      else s.u_buffer.tail ++ [np_clip ((a + 1.0) / 2.0 * 100.0) 0.0 100.0] := rfl

theorem simulate_cons (s : EnvState) (a : ℚ) (as : List ℚ) :
    simulate s (a :: as) = simulate (step s a).state as := rfl

theorem simulate_nil (s : EnvState) : simulate s [] = s := rfl

/-- The temperature trajectory depends only on the number of steps taken and
on the prefix of the dead-time buffer that is consumed: two runs of the same
length `n ≤ ` (buffer length) from states agreeing on temperature, buffer
length and the first `n` buffered outputs have equal temperatures, whatever
the two action sequences are. -/
theorem simulate_temp_indep (n : ℕ) :
    ∀ (s₁ s₂ : EnvState) (as bs : List ℚ),
      as.length = n → bs.length = n →
      s₁.current_temp = s₂.current_temp →
      s₁.u_buffer.length = s₂.u_buffer.length →
      n ≤ s₁.u_buffer.length →
      s₁.u_buffer.take n = s₂.u_buffer.take n →
      (simulate s₁ as).current_temp = (simulate s₂ bs).current_temp := by
  induction n with
  | zero =>
    intro s₁ s₂ as bs ha hb ht _ _ _
    rw [List.length_eq_zero] at ha hb
    subst ha; subst hb
    simpa [simulate_nil] using ht
  | succ n ih =>
    intro s₁ s₂ as bs ha hb ht hlen hle htake
    cases as with
    | nil => simp at ha
    | cons a as' =>
    cases bs with
    | nil => simp at hb
    | cons b bs' =>
    obtain ⟨c₁, r₁, hbuf₁⟩ : ∃ c r, s₁.u_buffer = c :: r := by
      cases hbuf : s₁.u_buffer with
      | nil => rw [hbuf] at hle; simp at hle
      | cons c r => exact ⟨c, r, rfl⟩
    obtain ⟨c₂, r₂, hbuf₂⟩ : ∃ c r, s₂.u_buffer = c :: r := by
      cases hbuf : s₂.u_buffer with
      | nil => rw [hlen, hbuf] at hle; simp at hle
      | cons c r => exact ⟨c, r, rfl⟩
    have htakeS : s₁.u_buffer.take n = s₂.u_buffer.take n := by
      have h := congrArg (List.take n) htake
      simpa [List.take_take, Nat.min_eq_left (Nat.le_succ n)] using h
    have hc : c₁ = c₂ := by
      rw [hbuf₁, hbuf₂] at htake
      simp only [List.take_succ_cons] at htake
      injection htake
    have htail : List.take n r₁ = List.take n r₂ := by
      rw [hbuf₁, hbuf₂] at htake
      simp only [List.take_succ_cons] at htake
      injection htake
    have hn1 : n ≤ s₁.u_buffer.length := Nat.le_of_succ_le hle
    have hn2 : n ≤ s₂.u_buffer.length := hlen ▸ hn1
    have hr1 : n ≤ r₁.length := by
      have := hle; rw [hbuf₁] at this; simpa using Nat.le_of_succ_le_succ this
    have hr2 : n ≤ r₂.length := by
      have h2 : n + 1 ≤ s₂.u_buffer.length := hlen ▸ hle
      rw [hbuf₂] at h2; simpa using Nat.le_of_succ_le_succ h2
    rw [simulate_cons, simulate_cons]
    apply ih
    · simpa using ha
    · simpa using hb
    · rw [step_current_temp, step_current_temp, ht, hbuf₁, hbuf₂]
      simp [hc]
    · rw [step_u_buffer, step_u_buffer]
      by_cases hB : s₁.u_buffer.length < bufferSize
      · rw [if_pos hB, if_pos (hlen ▸ hB)]
        simp [hlen]
      · rw [if_neg hB, if_neg (hlen ▸ hB)]
        simp [hlen]
    · rw [step_u_buffer]
      by_cases hB : s₁.u_buffer.length < bufferSize
      · rw [if_pos hB]; simp; omega
      · rw [if_neg hB]; rw [hbuf₁]; simp only [List.tail_cons]
        simpa using Nat.le_trans hr1 (Nat.le_add_right _ 1)
    · rw [step_u_buffer, step_u_buffer]
      by_cases hB : s₁.u_buffer.length < bufferSize
      · rw [if_pos hB, if_pos (hlen ▸ hB)]
        rw [List.take_append_of_le_length hn1, List.take_append_of_le_length hn2]
        exact htakeS
      · rw [if_neg hB, if_neg (hlen ▸ hB)]
        rw [List.take_append_of_le_length, List.take_append_of_le_length]
        · rw [hbuf₁, hbuf₂]; simpa using htail
        · simpa [hbuf₂] using hr2
        · simpa [hbuf₁] using hr1

end HeaterGym

namespace TrainRL

theorem trl_step_current_temp (s : EnvState) (a : ℚ) :
    (step s a).state.current_temp =
      s.current_temp + (KP * s.u_buffer.headI - (s.current_temp - 24.0)) / TAU * DT := rfl

theorem trl_step_u_buffer (s : EnvState) (a : ℚ) :
    (step s a).state.u_buffer =
      if s.u_buffer.length < bufferSize
      then s.u_buffer ++ [np_clip ((a + 1.0) / 2.0 * 100.0) 0.0 100.0]
      else s.u_buffer.tail ++ [np_clip ((a + 1.0) / 2.0 * 100.0) 0.0 100.0] := rfl

end TrainRL

/-- Claim C1: the claim asserts a dead-time buffer of `ceil(THETA/DT) = 16` zero
entries; the code computes `int(max(1, THETA/DT))`, which truncates
`15.735` down to 15, in both environment copies. -/
theorem claim_C1_counterexample :
    (HeaterGym.reset 50.0).u_buffer.length ≠ Int.toNat ⌈THETA / DT⌉ ∧
    (HeaterGym.reset 50.0).u_buffer.length = 15 ∧
    (TrainRL.reset 50.0).u_buffer.length = 15 ∧
    Int.toNat ⌈THETA / DT⌉ = 16 := by
  have hceil : (⌈THETA / DT⌉ : ℤ) = 16 := by
    rw [Int.ceil_eq_iff] <;> norm_num [THETA, DT]
  have h1 : (HeaterGym.reset 50.0).u_buffer.length = 15 := by
    simp [HeaterGym.reset, bufferSize_eq]
  have h2 : (TrainRL.reset 50.0).u_buffer.length = 15 := by
    simp [TrainRL.reset, bufferSize_eq]
  refine ⟨?_, h1, h2, ?_⟩ <;> rw [hceil] <;> simp [h1]

/-- Claim C1 (amended): reset fills the dead-time buffer with exactly
`int(max(1, THETA/DT))` zeros — truncation, not ceiling: 15 entries under
the default constants — in both environment copies; `step` keeps that
length fixed; and an applied output first affects the temperature 15 steps
later: any two action sequences of equal length ≤ 15 give identical
temperatures, while runs differing in their first action diverge at step 16. -/
theorem claim_C1 (t : ℚ) :
    (HeaterGym.reset t).u_buffer = List.replicate 15 0.0 ∧
    (TrainRL.reset t).u_buffer = List.replicate 15 0.0 ∧
    (∀ (s : HeaterGym.EnvState) (a : ℚ), s.u_buffer.length = bufferSize →
      (HeaterGym.step s a).state.u_buffer.length = bufferSize) ∧
    (∀ (s : TrainRL.EnvState) (a : ℚ), s.u_buffer.length = bufferSize →
      (TrainRL.step s a).state.u_buffer.length = bufferSize) ∧
    (∀ (as bs : List ℚ), as.length = bs.length → as.length ≤ 15 →
      (HeaterGym.simulate (HeaterGym.reset t) as).current_temp =
        (HeaterGym.simulate (HeaterGym.reset t) bs).current_temp) ∧
    (HeaterGym.simulate (HeaterGym.reset 50.0) (1 :: List.replicate 15 0)).current_temp ≠
      (HeaterGym.simulate (HeaterGym.reset 50.0) (List.replicate 16 0)).current_temp := by
  refine ⟨by rw [HeaterGym.reset, bufferSize_eq], by rw [TrainRL.reset, bufferSize_eq],
    ?_, ?_, ?_, ?_⟩
  · intro s a h
    rw [HeaterGym.step_u_buffer, if_neg (by omega)]
    simp [h, bufferSize_eq]
  · intro s a h
    rw [TrainRL.trl_step_u_buffer, if_neg (by omega)]
    simp [h, bufferSize_eq]
  · intro as bs hlen hle
    apply HeaterGym.simulate_temp_indep as.length _ _ _ _ rfl hlen.symm rfl rfl _ rfl
    simp [HeaterGym.reset, bufferSize_eq]
    exact hle
  · norm_num [HeaterGym.simulate, HeaterGym.step, HeaterGym.reset, bufferSize_eq, np_clip,
      KP, TAU, DT, THETA, List.replicate_succ]

theorem claim_C1_witness :
    (HeaterGym.reset 50.0).u_buffer = List.replicate 15 0.0 ∧
    (HeaterGym.step (HeaterGym.reset 50.0) 0).state.u_buffer.length = bufferSize ∧
    (TrainRL.step (TrainRL.reset 50.0) 0).state.u_buffer.length = bufferSize ∧
    (HeaterGym.simulate (HeaterGym.reset 50.0) [1, 0]).current_temp =
      (HeaterGym.simulate (HeaterGym.reset 50.0) [0, 1]).current_temp :=
  ⟨(claim_C1 50.0).1,
   (claim_C1 50.0).2.2.1 (HeaterGym.reset 50.0) 0
     (by simp [HeaterGym.reset]),
   (claim_C1 50.0).2.2.2.1 (TrainRL.reset 50.0) 0
     (by simp [TrainRL.reset]),
   (claim_C1 50.0).2.2.2.2.1 [1, 0] [0, 1] rfl (by norm_num)⟩

/-- Claim C2: one `step` call pops the oldest FIFO entry as `u_delayed`, pushes the
clipped output, and performs exactly the Euler update
`T' = T + DT/TAU * (KP * u_delayed - (T - 24.0))`, in both environment
copies (for any state whose buffer is at its fixed capacity, as every
reachable state is). -/
theorem claim_C2 (s : HeaterGym.EnvState) (s' : TrainRL.EnvState) (a a' : ℚ)
    (h : s.u_buffer.length = bufferSize) (h' : s'.u_buffer.length = bufferSize) :
    (HeaterGym.step s a).state.current_temp =
      s.current_temp + DT / TAU * (KP * s.u_buffer.headI - (s.current_temp - 24.0)) ∧
    (HeaterGym.step s a).state.u_buffer =
      s.u_buffer.tail ++ [np_clip ((a + 1.0) / 2.0 * 100.0) 0.0 100.0] ∧
    (TrainRL.step s' a').state.current_temp =
      s'.current_temp + DT / TAU * (KP * s'.u_buffer.headI - (s'.current_temp - 24.0)) ∧
    (TrainRL.step s' a').state.u_buffer =
      s'.u_buffer.tail ++ [np_clip ((a' + 1.0) / 2.0 * 100.0) 0.0 100.0] := by
  refine ⟨?_, ?_, ?_, ?_⟩
  · rw [HeaterGym.step_current_temp]; ring
  · rw [HeaterGym.step_u_buffer, if_neg (by omega)]
  · rw [TrainRL.trl_step_current_temp]; ring
  · rw [TrainRL.trl_step_u_buffer, if_neg (by omega)]

theorem claim_C2_witness :
    (HeaterGym.step (HeaterGym.reset 50.0) 0).state.current_temp =
      (HeaterGym.reset 50.0).current_temp +
        DT / TAU * (KP * (HeaterGym.reset 50.0).u_buffer.headI -
          ((HeaterGym.reset 50.0).current_temp - 24.0)) ∧
    (HeaterGym.step (HeaterGym.reset 50.0) 0).state.u_buffer =
      (HeaterGym.reset 50.0).u_buffer.tail ++ [np_clip ((0 + 1.0) / 2.0 * 100.0) 0.0 100.0] ∧
    (TrainRL.step (TrainRL.reset 50.0) 0).state.current_temp =
      (TrainRL.reset 50.0).current_temp +
        DT / TAU * (KP * (TrainRL.reset 50.0).u_buffer.headI -
          ((TrainRL.reset 50.0).current_temp - 24.0)) ∧
    (TrainRL.step (TrainRL.reset 50.0) 0).state.u_buffer =
      (TrainRL.reset 50.0).u_buffer.tail ++ [np_clip ((0 + 1.0) / 2.0 * 100.0) 0.0 100.0] :=
  claim_C2 (HeaterGym.reset 50.0) (TrainRL.reset 50.0) 0 0
    (by simp [HeaterGym.reset]) (by simp [TrainRL.reset])

/-- Claim C5: `terminated` is always `false`; the step counter starts at 0 on
reset and increments by 1 per step; `max_steps` is set to 600 by reset and
preserved by step; and `truncated` is `true` exactly when the post-step
counter has reached 600 — in both environment variants, independently of
the reward. -/
theorem claim_C5 (t : ℚ) (s : HeaterGym.EnvState) (s' : TrainRL.EnvState) (a a' : ℚ)
    (hm : s.max_steps = 600) (hm' : s'.max_steps = 600) :
    (HeaterGym.reset t).current_step = 0 ∧
    (HeaterGym.reset t).max_steps = 600 ∧
    (TrainRL.reset t).current_step = 0 ∧
    (TrainRL.reset t).max_steps = 600 ∧
    (HeaterGym.step s a).state.current_step = s.current_step + 1 ∧
    (HeaterGym.step s a).state.max_steps = s.max_steps ∧
    (HeaterGym.step s a).terminated = false ∧
    ((HeaterGym.step s a).truncated = true ↔ 600 ≤ s.current_step + 1) ∧
    (TrainRL.step s' a').state.current_step = s'.current_step + 1 ∧
    (TrainRL.step s' a').state.max_steps = s'.max_steps ∧
    (TrainRL.step s' a').terminated = false ∧
    ((TrainRL.step s' a').truncated = true ↔ 600 ≤ s'.current_step + 1) := by
  refine ⟨rfl, rfl, rfl, rfl, rfl, rfl, rfl, ?_, rfl, rfl, rfl, ?_⟩
  · show decide (s.max_steps ≤ s.current_step + 1) = true ↔ _
    rw [hm]
    simp
  · show decide (s'.max_steps ≤ s'.current_step + 1) = true ↔ _
    rw [hm']
    simp

theorem claim_C5_witness :
    (HeaterGym.reset 50.0).current_step = 0 ∧
    (HeaterGym.step (HeaterGym.reset 50.0) 0).terminated = false ∧
    ((HeaterGym.step (HeaterGym.reset 50.0) 0).truncated = true ↔
      600 ≤ (HeaterGym.reset 50.0).current_step + 1) ∧
    (TrainRL.step (TrainRL.reset 50.0) 0).terminated = false ∧
    ((TrainRL.step (TrainRL.reset 50.0) 0).truncated = true ↔
      600 ≤ (TrainRL.reset 50.0).current_step + 1) := by
  have h := claim_C5 50.0 (HeaterGym.reset 50.0) (TrainRL.reset 50.0) 0 0 rfl rfl
  exact ⟨h.1, h.2.2.2.2.2.2.1, h.2.2.2.2.2.2.2.1, h.2.2.2.2.2.2.2.2.2.2.1,
    h.2.2.2.2.2.2.2.2.2.2.2⟩

/-- Claim C7: in the enhanced-reward variant (`heater_gym_env.py`), whenever the
post-step temperature overshoots the target by more than 0.5 °C, the reward
equals `-(error^2) - 0.1 * |u - prev_output|` (the forced `-|reward|` branch
is taken and the `+10` near-target bonus cannot apply), and is non-positive. -/
theorem claim_C7 (s : HeaterGym.EnvState) (a : ℚ)
    (h : (HeaterGym.step s a).state.current_temp > s.target_temp + 0.5) :
    (HeaterGym.step s a).reward =
      -((s.target_temp - (HeaterGym.step s a).state.current_temp) ^ 2) -
        0.1 * |np_clip ((a + 1.0) / 2.0 * 100.0) 0.0 100.0 - s.prev_output| ∧
    (HeaterGym.step s a).reward ≤ 0 := by
  rw [HeaterGym.step_current_temp] at h
  set T' := s.current_temp + (KP * s.u_buffer.headI - (s.current_temp - 24.0)) / TAU * DT
    with hT'
  have hreward : (HeaterGym.step s a).reward =
      (let error := s.target_temp - T'
       let r1 := if T' > s.target_temp + 0.5 then -1 * |(-(error ^ 2))| else -(error ^ 2)
       let r2 := r1 - 0.1 * |np_clip ((a + 1.0) / 2.0 * 100.0) 0.0 100.0 - s.prev_output|
       if |error| < 0.5 then r2 + 10.0 else r2) := rfl
  rw [hreward]
  simp only []
  rw [if_pos h, if_neg ?hb]
  case hb =>
    intro hcon
    rw [abs_lt] at hcon
    have : s.target_temp - T' < -0.5 := by linarith
    linarith [hcon.1]
  have habs : |(-( (s.target_temp - T') ^ 2))| = (s.target_temp - T') ^ 2 := by
    rw [abs_neg, abs_of_nonneg (sq_nonneg _)]
  rw [habs, HeaterGym.step_current_temp, ← hT']
  constructor
  · ring
  · have h1 : (0:ℚ) ≤ (s.target_temp - T') ^ 2 := sq_nonneg _
    have h2 : (0:ℚ) ≤ |np_clip ((a + 1.0) / 2.0 * 100.0) 0.0 100.0 - s.prev_output| :=
      abs_nonneg _
    nlinarith

theorem claim_C7_witness :
    (HeaterGym.step ⟨50, 100, 100, 0, 600, List.replicate 15 0, 0⟩ 0).reward =
      -((50 - (HeaterGym.step ⟨50, 100, 100, 0, 600, List.replicate 15 0, 0⟩
          0).state.current_temp) ^ 2) -
        0.1 * |np_clip ((0 + 1.0) / 2.0 * 100.0) 0.0 100.0 - 0| ∧
    (HeaterGym.step ⟨50, 100, 100, 0, 600, List.replicate 15 0, 0⟩ 0).reward ≤ 0 :=
  claim_C7 ⟨50, 100, 100, 0, 600, List.replicate 15 0, 0⟩ 0
    (by norm_num [HeaterGym.step_current_temp, KP, TAU, DT, List.replicate_succ])

/-- Claim C3: with a successful connection, `run_safe_state_reset` attempts, in
order, manual output → 0.0 %, SV-1 → 25.0 °C, mode → AUTO (0), run-state →
STOP (0); a failure injected at any of the four writes suppresses only that
write's transmission while every remaining step still executes, and the
session close event terminates the trace on every path; with a failed
connection no register is written and no close happens (the session was
never opened). -/
theorem claim_C3 (f : Fin 4 → Bool) :
    SafeReset.run_safe_state_reset true f =
      (if f 0 then [] else [Ev.write MV_IN_ADDR 0]) ++ [Ev.sleep 0.5] ++
      (if f 1 then [] else [Ev.write SV1_ADDR 25]) ++ [Ev.sleep 0.5] ++
      (if f 2 then [] else [Ev.write A_M_ADDR 0]) ++ [Ev.sleep 0.5] ++
      (if f 3 then [] else [Ev.write R_S_ADDR 0]) ++ [Ev.sleep 0.5] ++
      [Ev.close] ∧
    (SafeReset.run_safe_state_reset true f).getLast? = some Ev.close ∧
    SafeReset.run_safe_state_reset false f = [] := by
  have h0 : SafeReset.set_vx_manual_output (f 0) 0.0 =
      if f 0 then [] else [Ev.write MV_IN_ADDR 0] := by
    cases hf : f 0 <;>
      norm_num [SafeReset.set_vx_manual_output, try_write, write_register]
  have h1 : SafeReset.set_vx_sv1 (f 1) SAFE_TEMP =
      if f 1 then [] else [Ev.write SV1_ADDR 25] := by
    cases hf : f 1 <;>
      norm_num [SafeReset.set_vx_sv1, try_write, write_register, SAFE_TEMP]
  have h2 : SafeReset.set_auto_manual (f 2) false =
      if f 2 then [] else [Ev.write A_M_ADDR 0] := by
    cases hf : f 2 <;>
      norm_num [SafeReset.set_auto_manual, try_write, write_register]
  have h3 : SafeReset.set_run_stop (f 3) false =
      if f 3 then [] else [Ev.write R_S_ADDR 0] := by
    cases hf : f 3 <;>
      norm_num [SafeReset.set_run_stop, try_write, write_register]
  have hmain : SafeReset.run_safe_state_reset true f =
      (if f 0 then [] else [Ev.write MV_IN_ADDR 0]) ++ [Ev.sleep 0.5] ++
      (if f 1 then [] else [Ev.write SV1_ADDR 25]) ++ [Ev.sleep 0.5] ++
      (if f 2 then [] else [Ev.write A_M_ADDR 0]) ++ [Ev.sleep 0.5] ++
      (if f 3 then [] else [Ev.write R_S_ADDR 0]) ++ [Ev.sleep 0.5] ++
      [Ev.close] := by
    rw [SafeReset.run_safe_state_reset, if_pos rfl, h0, h1, h2, h3]
  refine ⟨hmain, ?_, rfl⟩
  rw [hmain]
  rcases hf0 : f 0 <;> rcases hf1 : f 1 <;> rcases hf2 : f 2 <;> rcases hf3 : f 3 <;> rfl

/-- Claim C4: every manual-output write transmits `max(0, min(U, p))`: `U = 100`
for the general-purpose driver in `reset_vx_to_safe_state.py` and `U = 40`
for the step-response collection script; requesting 150 transmits 100
resp. 40, requesting −20 transmits 0 under both. -/
theorem claim_C4 :
    (∀ p : ℚ, SafeReset.set_vx_manual_output false p =
      [Ev.write MV_IN_ADDR (max 0 (min 100 p))]) ∧
    (∀ p : ℚ, Collect.set_vx_manual_output false p =
      [Ev.write MV_IN_ADDR (max 0 (min 40 p))]) ∧
    SafeReset.set_vx_manual_output false 150 = [Ev.write MV_IN_ADDR 100] ∧
    Collect.set_vx_manual_output false 150 = [Ev.write MV_IN_ADDR 40] ∧
    SafeReset.set_vx_manual_output false (-20) = [Ev.write MV_IN_ADDR 0] ∧
    Collect.set_vx_manual_output false (-20) = [Ev.write MV_IN_ADDR 0] := by
  refine ⟨fun p => ?_, fun p => ?_, ?_, ?_, ?_, ?_⟩ <;>
    norm_num [SafeReset.set_vx_manual_output, Collect.set_vx_manual_output,
      try_write, write_register]

/-- Each tick of the collection loops appends at most one record;
`(l.filterMap g).length` counts the ticks whose readings pass the guard. -/
theorem length_filterMap_eq {α β : Type} (g : α → Option β) (l : List α) :
    (l.filterMap g).length = (l.filter (fun x => (g x).isSome)).length := by
  induction l with
  | nil => rfl
  | cons x xs ih =>
    cases hx : g x <;>
      simp [List.filterMap_cons, List.filter_cons, hx, ih]

/-- Claim C6: a tick whose temperature read is absent writes no record in either
phase loop and the loop continues (every remaining tick is still
processed); a tick whose required readings are all present appends exactly
one record — so each loop emits exactly one record per tick passing its
guard. -/
theorem claim_C6 (so : ℚ) (readings : List (Option ℚ × Option ℚ)) :
    (∀ out : Option ℚ, Collect.heating_tick so none out = none) ∧
    (∀ out : Option ℚ, Collect.cooling_tick none out = none) ∧
    (∀ (t : ℚ) (out : Option ℚ), ∃ r, Collect.heating_tick so (some t) out = some r) ∧
    (∀ t o : ℚ, ∃ r, Collect.cooling_tick (some t) (some o) = some r) ∧
    (Collect.heating_loop so readings).length =
      (readings.filter (fun r => r.1.isSome)).length ∧
    (Collect.cooling_loop readings).length =
      (readings.filter (fun r => r.1.isSome && r.2.isSome)).length := by
  refine ⟨fun out => rfl, fun out => rfl, fun t out => ⟨_, rfl⟩, fun t o => ⟨_, rfl⟩, ?_, ?_⟩
  · rw [Collect.heating_loop, length_filterMap_eq]
    congr 1
    apply List.filter_congr
    intro x _
    rcases x with ⟨t, o⟩
    cases t <;> simp [Collect.heating_tick]
  · rw [Collect.cooling_loop, length_filterMap_eq]
    congr 1
    apply List.filter_congr
    intro x _
    rcases x with ⟨t, o⟩
    cases t <;> cases o <;> simp [Collect.cooling_tick]

/-- Claim C10: the two phase loops use different skip conditions: in the heating
loop a present temperature with an absent measured output still logs a
record whose actual-output field is absent, while the cooling loop skips
the tick whenever either reading is absent. -/
theorem claim_C10 :
    (∀ so t : ℚ, Collect.heating_tick so (some t) none =
      some { target_output := so, actual_output := none, actual_temp := t }) ∧
    (∀ t : ℚ, Collect.cooling_tick (some t) none = none) ∧
    (∀ o : ℚ, Collect.cooling_tick none (some o) = none) :=
  ⟨fun so t => rfl, fun t => rfl, fun o => rfl⟩

/-- Claim C9: in the system-identification batch, a file whose fit raises
contributes nothing to the aggregate while the other files are still
processed; the summary exists iff at least one file was fitted, and then it
holds the arithmetic means of `(Kp, tau, theta)` over exactly the
successfully fitted files. -/
theorem claim_C9 (fits : List (Except String SysId.FitParams)) :
    (SysId.batch_aggregate fits = none ↔
      fits.filterMap SysId.analyze_step_response = []) ∧
    (∀ (pre post : List (Except String SysId.FitParams)) (msg : String),
      SysId.batch_aggregate (pre ++ Except.error msg :: post) =
        SysId.batch_aggregate (pre ++ post)) ∧
    (fits.filterMap SysId.analyze_step_response ≠ [] →
      SysId.batch_aggregate fits =
        some { Kp := SysId.np_mean
                 ((fits.filterMap SysId.analyze_step_response).map SysId.FitParams.Kp)
               tau := SysId.np_mean
                 ((fits.filterMap SysId.analyze_step_response).map SysId.FitParams.tau)
               theta := SysId.np_mean
                 ((fits.filterMap SysId.analyze_step_response).map SysId.FitParams.theta) }) := by
  refine ⟨?_, ?_, ?_⟩
  · rw [SysId.batch_aggregate]
    by_cases h : (fits.filterMap SysId.analyze_step_response).isEmpty
    · simp only [h, if_pos]
      simpa [List.isEmpty_iff] using h
    · simp only [h, if_neg, Bool.false_eq_true, not_false_iff]
      constructor
      · intro hc; exact absurd hc (by simp)
      · intro hc; exact absurd hc (by simpa [List.isEmpty_iff] using h)
  · intro pre post msg
    have hfm : (pre ++ Except.error msg :: post).filterMap SysId.analyze_step_response =
        (pre ++ post).filterMap SysId.analyze_step_response := by
      simp [List.filterMap_append, List.filterMap_cons, SysId.analyze_step_response]
    rw [SysId.batch_aggregate, SysId.batch_aggregate, hfm]
  · intro h
    rw [SysId.batch_aggregate]
    rw [if_neg (by simpa [List.isEmpty_iff] using h)]

theorem claim_C9_witness :
    SysId.batch_aggregate [Except.error "fit failed", Except.ok ⟨1, 2, 3⟩] =
      some { Kp := SysId.np_mean [1], tau := SysId.np_mean [2],
             theta := SysId.np_mean [3] } :=
  (claim_C9 [Except.error "fit failed", Except.ok ⟨1, 2, 3⟩]).2.2
    (by simp [SysId.analyze_step_response])

namespace Animation

theorem length_interp_pair (F : ℕ) (s e : Snapshot) :
    (interp_pair F s e).length = F := by
  unfold interp_pair
  rw [List.length_map, List.length_range]

/-- Indexing a concatenation of constant-length chunks. -/
theorem flatMap_chunk_getD {α β : Type} (g : α → List β) (F : ℕ) (l : List α)
    (hg : ∀ a ∈ l, (g a).length = F) (i f : ℕ) (hi : i < l.length) (hf : f < F)
    (d : α) (db : β) :
    (l.flatMap g).getD (i * F + f) db = (g (l.getD i d)).getD f db := by
  induction l generalizing i with
  | nil => simp at hi
  | cons a as ih =>
    cases i with
    | zero =>
      simp only [List.flatMap_cons, Nat.zero_mul, Nat.zero_add, List.getD_cons_zero]
      rw [List.getD_append]
      rw [hg a (List.mem_cons_self a as)]
      exact hf
    | succ i =>
      simp only [List.flatMap_cons, List.getD_cons_succ]
      rw [List.getD_append_right]
      · rw [hg a (List.mem_cons_self a as)]
        have harith : (i + 1) * F + f - F = i * F + f := by
          rw [Nat.succ_mul]
          omega
        rw [harith]
        apply ih
        · intro x hx; exact hg x (List.mem_cons_of_mem a hx)
        · simpa using hi
      · rw [hg a (List.mem_cons_self a as)]
        calc F ≤ (i + 1) * F := by rw [Nat.succ_mul]; omega
          _ ≤ (i + 1) * F + f := Nat.le_add_right _ _

theorem flatMap_const_length {α β : Type} (g : α → List β) (F : ℕ) (l : List α)
    (hg : ∀ a ∈ l, (g a).length = F) :
    (l.flatMap g).length = l.length * F := by
  induction l with
  | nil => simp
  | cons a as ih =>
    simp only [List.flatMap_cons, List.length_append, List.length_cons]
    rw [hg a (List.mem_cons_self a as), ih (fun x hx => hg x (List.mem_cons_of_mem a hx)),
      Nat.succ_mul]
    omega

theorem zip_tail_getD (l : List Snapshot) (i : ℕ) (hi : i + 1 < l.length) :
    (l.zip l.tail).getD i default = (l.getD i default, l.getD (i + 1) default) := by
  have hlen : (l.zip l.tail).length = l.length - 1 := by
    simp [List.length_zip]
  have hi' : i < (l.zip l.tail).length := by omega
  rw [List.getD_eq_getElem _ _ hi', List.getElem_zip,
    List.getD_eq_getElem _ _ (by omega : i < l.length),
    List.getD_eq_getElem _ _ (by omega : i + 1 < l.length)]
  refine Prod.ext rfl ?_
  simp [List.getElem_tail]

end Animation

/-- Claim C8: the claim asserts the interpolated frame's `step` is
`round((1-alpha)*step_i + alpha*step_{i+1})`; the code applies Python
`int(...)`, which truncates.  With snapshots at steps 0 and 3 and
`frames_per_log = 4`, frame 1 has `alpha = 1/4` and interpolant `3/4`:
the code stores 0 while rounding gives 1. -/
theorem claim_C8_counterexample :
    ((Animation.interpolate_data [⟨0, [], [], []⟩, ⟨3, [], [], []⟩] 4).getD 1
        default).step ≠
      round ((1 - (1 : ℚ) / 4) * ((0 : ℤ) : ℚ) + (1 : ℚ) / 4 * ((3 : ℤ) : ℚ)) ∧
    ((Animation.interpolate_data [⟨0, [], [], []⟩, ⟨3, [], [], []⟩] 4).getD 1
        default).step = 0 ∧
    round ((1 - (1 : ℚ) / 4) * ((0 : ℤ) : ℚ) + (1 : ℚ) / 4 * ((3 : ℤ) : ℚ)) = 1 := by
  have hround : round ((1 - (1 : ℚ) / 4) * ((0 : ℤ) : ℚ) + (1 : ℚ) / 4 * ((3 : ℤ) : ℚ)) =
      1 := by
    rw [round_eq]
    norm_num
  have hstep : ((Animation.interpolate_data [⟨0, [], [], []⟩, ⟨3, [], [], []⟩] 4).getD 1
      default).step = 0 := by
    norm_num [Animation.interpolate_data, Animation.interp_pair, Animation.py_int,
      Animation.lerp_list, List.range_succ]
  exact ⟨by rw [hstep, hround]; decide, hstep, hround⟩

/-- Claim C8 (amended): for `n ≥ 2` snapshots and `F ≥ 1` frames per log, the
animator produces exactly `(n-1)*F + 1` frames; frame `i*F + f`
(for `i < n-1`, `f < F`) interpolates snapshots `i` and `i+1` with
`alpha = f/F`: `times` copied from snapshot `i`, `temps` and `outputs`
the element-wise `(1-alpha)*start + alpha*end`, and `step` the Python
`int(...)` (truncation toward zero, not rounding) of the interpolated
step count; the final frame is the last snapshot unmodified. -/
theorem claim_C8 (data : List Animation.Snapshot) (F : ℕ)
    (h2 : 2 ≤ data.length) (hF : 1 ≤ F) :
    (Animation.interpolate_data data F).length = (data.length - 1) * F + 1 ∧
    (Animation.interpolate_data data F).getLastD default = data.getLastD default ∧
    (∀ i f : ℕ, i < data.length - 1 → f < F →
      (Animation.interpolate_data data F).getD (i * F + f) default =
        { step := Animation.py_int ((1 - (f : ℚ) / F) * ((data.getD i default).step : ℚ) +
            (f : ℚ) / F * ((data.getD (i + 1) default).step : ℚ))
          times := (data.getD i default).times
          temps := Animation.lerp_list ((f : ℚ) / F) (data.getD i default).temps
            (data.getD (i + 1) default).temps
          outputs := Animation.lerp_list ((f : ℚ) / F) (data.getD i default).outputs
            (data.getD (i + 1) default).outputs } ) := by
  have hzlen : (data.zip data.tail).length = data.length - 1 := by
    rw [List.length_zip, List.length_tail]
    omega
  have hchunks : ∀ p ∈ data.zip data.tail,
      ((fun p : Animation.Snapshot × Animation.Snapshot =>
        Animation.interp_pair F p.1 p.2) p).length = F :=
    fun p _ => Animation.length_interp_pair F p.1 p.2
  have hfmlen : ((data.zip data.tail).flatMap
      (fun p => Animation.interp_pair F p.1 p.2)).length = (data.length - 1) * F := by
    rw [Animation.flatMap_const_length _ F _ hchunks, hzlen]
  refine ⟨?_, ?_, ?_⟩
  · rw [Animation.interpolate_data, List.length_append, hfmlen]
    rfl
  · exact List.getLastD_concat _ _ _
  · intro i f hi hf
    have hidx : i * F + f < (data.length - 1) * F := by
      have h1 : i * F + f < (i + 1) * F := by
        rw [Nat.succ_mul]; omega
      have h2' : (i + 1) * F ≤ (data.length - 1) * F :=
        Nat.mul_le_mul_right F (by omega)
      omega
    rw [Animation.interpolate_data,
      List.getD_append _ _ _ _ (by rw [hfmlen]; exact hidx),
      Animation.flatMap_chunk_getD _ F _ hchunks i f (by omega) hf default default,
      Animation.zip_tail_getD data i (by omega)]
    rw [List.getD_eq_getElem _ _ (by rw [Animation.length_interp_pair]; exact hf)]
    unfold Animation.interp_pair
    rw [List.getElem_map]
    simp only [List.getElem_range]

theorem claim_C8_witness :
    (Animation.interpolate_data [⟨0, [0], [20], [5]⟩, ⟨10, [0], [30], [7]⟩] 2).length =
      (([⟨0, [0], [20], [5]⟩, ⟨10, [0], [30], [7]⟩] :
        List Animation.Snapshot).length - 1) * 2 + 1 ∧
    (Animation.interpolate_data [⟨0, [0], [20], [5]⟩, ⟨10, [0], [30], [7]⟩] 2).getLastD
        default =
      ([⟨0, [0], [20], [5]⟩, ⟨10, [0], [30], [7]⟩] :
        List Animation.Snapshot).getLastD default ∧
    (Animation.interpolate_data [⟨0, [0], [20], [5]⟩, ⟨10, [0], [30], [7]⟩] 2).getD
        (0 * 2 + 1) default =
      { step := Animation.py_int ((1 - (1 : ℚ) / 2) *
          ((([⟨0, [0], [20], [5]⟩, ⟨10, [0], [30], [7]⟩] :
            List Animation.Snapshot).getD 0 default).step : ℚ) +
          (1 : ℚ) / 2 * ((([⟨0, [0], [20], [5]⟩, ⟨10, [0], [30], [7]⟩] :
            List Animation.Snapshot).getD (0 + 1) default).step : ℚ))
        times := (([⟨0, [0], [20], [5]⟩, ⟨10, [0], [30], [7]⟩] :
          List Animation.Snapshot).getD 0 default).times
        temps := Animation.lerp_list ((1 : ℚ) / 2)
          ((([⟨0, [0], [20], [5]⟩, ⟨10, [0], [30], [7]⟩] :
            List Animation.Snapshot).getD 0 default).temps)
          ((([⟨0, [0], [20], [5]⟩, ⟨10, [0], [30], [7]⟩] :
            List Animation.Snapshot).getD (0 + 1) default).temps)
        outputs := Animation.lerp_list ((1 : ℚ) / 2)
          ((([⟨0, [0], [20], [5]⟩, ⟨10, [0], [30], [7]⟩] :
            List Animation.Snapshot).getD 0 default).outputs)
          ((([⟨0, [0], [20], [5]⟩, ⟨10, [0], [30], [7]⟩] :
            List Animation.Snapshot).getD (0 + 1) default).outputs) } := by
  have h := claim_C8 [⟨0, [0], [20], [5]⟩, ⟨10, [0], [30], [7]⟩] 2
    (by norm_num) (by norm_num)
  exact ⟨h.1, h.2.1, h.2.2 0 1 (by norm_num) (by norm_num)⟩

end RLTemp
